import Mathlib

/-!
# Verification of the `instapaper` client library core

A shallow embedding, in Lean 4, of the signing / token-exchange / dispatch /
decoding core of the `instapaper` Rust crate (`src/lib.rs`), together with
theorems settling the specification claims about it.

Conventions of the embedding:
* Rust `HashMap<K, V>` values are modelled as association lists together with
  the insert-replaces-existing-key operation `hmInsert`; iteration order of a
  `HashMap` is arbitrary, which theorems model by quantifying over
  permutations of the association list.
* The HTTP transport is modelled by passing the surfaced response
  (status code and raw body) to each method as an explicit argument; request
  construction is modelled by `SentRequest` values.
* Behaviour of the third-party crates the source calls into
  (`reqwest::Response::error_for_status`, the `url` crate's URL/query-pair
  parser, `serde_json`) is embedded from those crates' documented semantics,
  at the granularity the source observes.  Percent-escapes are decoded at
  byte granularity (a multi-byte UTF-8 escape sequence becomes one char per
  byte); no claim depends on non-ASCII value reconstruction.
-/

namespace Instapaper

/-- The client record, from `struct Client`: consumer credentials plus the
optional OAuth token pair obtained by `authenticate`. -/
structure Client where
  consumer_key : String
  consumer_secret : String
  oauth_key : Option String
  oauth_secret : Option String
deriving DecidableEq, Repr, Inhabited

/-- `HashMap::insert` on the association-list model of a Rust `HashMap`:
any existing binding of the key is dropped and the new binding appended
(later inserts win). -/
def hmInsert (k v : String) (m : List (String × String)) : List (String × String) :=
  m.filter (fun p => p.1 ≠ k) ++ [(k, v)]

/-- `HashMap::from_iter`: successive `insert`s of the pairs, so a later pair
with the same key overwrites an earlier one. -/
def hmFromIter (l : List (String × String)) : List (String × String) :=
  l.foldl (fun m p => hmInsert p.1 p.2 m) []

/-- `HashMap::get` on the association-list model. -/
def hmGet (m : List (String × String)) (k : String) : Option String :=
  m.lookup k

/-! ## The `url` crate's query-pair parsing

`authenticate` feeds the exchange response body through
`Url::parse(&format!("https://junk.com/?{}", body))` followed by
`url.query_pairs()`.  Net effect of that pipeline on the body text:
the URL parser first removes leading and trailing C0 controls and spaces
from its input (the leading trim hits the fixed `https` prefix, so only the
trailing trim is observable on the body) and then strips ASCII tab, LF and
CR everywhere; the query ends at the first `#` (fragment); the remaining
text is parsed with form-urlencoded semantics (split on `&`, empty pieces
skipped, each piece split at its first `=` with a missing `=` meaning an
empty value, `+` decoded to space and `%XY` hex escapes decoded;
characters the URL parser percent-encodes are decoded right back by
`query_pairs`, a net identity). -/

/-- `Url::parse`'s first step removes trailing C0 controls and spaces
(code points `≤ U+0020`) from the input's end; on
`https://junk.com/?body` that trims them from the end of the body.  (The
matching leading trim stops at the `https` scheme and never reaches the
body.) -/
def trimEnd (l : List Char) : List Char :=
  (l.reverse.dropWhile fun c => c.toNat ≤ 32).reverse

/-- The URL parser then strips ASCII tab, LF and CR from its input. -/
def stripCtl (l : List Char) : List Char :=
  l.filter (fun c => c ≠ '\t' ∧ c ≠ '\n' ∧ c ≠ '\r')

/-- The query part of the text after `?`: everything before the first `#`. -/
def queryPart (l : List Char) : List Char :=
  l.takeWhile (fun c => c ≠ '#')

/-- Split a character list on a separator character; `n` separators yield
`n + 1` (possibly empty) pieces. -/
def splitOnChar (sep : Char) : List Char → List (List Char)
  | [] => [[]]
  | c :: rest =>
    if c = sep then
      [] :: splitOnChar sep rest
    else
      match splitOnChar sep rest with
      | [] => [[c]]
      | p :: ps => (c :: p) :: ps

/-- Is `c` an ASCII hex digit? -/
def isHexDigit (c : Char) : Bool :=
  ('0' ≤ c ∧ c ≤ '9') ∨ ('a' ≤ c ∧ c ≤ 'f') ∨ ('A' ≤ c ∧ c ≤ 'F')

/-- Numeric value of an ASCII hex digit. -/
def hexVal (c : Char) : Nat :=
  if '0' ≤ c ∧ c ≤ '9' then c.toNat - '0'.toNat
  else if 'a' ≤ c ∧ c ≤ 'f' then c.toNat - 'a'.toNat + 10
  else c.toNat - 'A'.toNat + 10

/-- Form-urlencoded decoding of one name or value: `+` becomes a space and a
valid `%XY` escape becomes the byte `0xXY`; an invalid escape is kept
verbatim (the `url` crate's `percent_decode` behaviour). -/
def pdec : List Char → List Char
  | [] => []
  | c :: rest =>
    if c = '+' then ' ' :: pdec rest
    else if c = '%' then
      match rest with
      | a :: b :: rest2 =>
        if isHexDigit a ∧ isHexDigit b then
          Char.ofNat (16 * hexVal a + hexVal b) :: pdec rest2
        else
          '%' :: pdec (a :: b :: rest2)
      | [a] => '%' :: pdec [a]
      | [] => ['%']
    else c :: pdec rest

/-- One `name=value` piece: split at the first `=` (no `=` means the whole
piece is the name and the value is empty), then decode both sides. -/
def parsePair (l : List Char) : String × String :=
  let name := l.takeWhile (fun c => c ≠ '=')
  let value := (l.dropWhile (fun c => c ≠ '=')).drop 1
  (String.mk (pdec name), String.mk (pdec value))

/-- The pairs `url.query_pairs()` yields for `https://junk.com/?body`:
trim trailing C0 controls and spaces, strip tab/LF/CR, stop at `#`, split
on `&`, skip empty pieces, parse each piece as `name=value`. -/
def parseQueryPairs (body : String) : List (String × String) :=
  (((splitOnChar '&' (queryPart (stripCtl (trimEnd body.toList)))).filter
      (fun p => p ≠ [])).map parsePair)

/-- A character the query-pair pipeline passes through verbatim wherever it
stands: above `U+0020` (so neither a C0 control nor a space, which the URL
parser trims at the input's end or strips), not a separator (`&`, `=`,
`#`), and not part of an escape (`%`, `+`). -/
def plainChar (c : Char) : Bool :=
  32 < c.toNat ∧ c ≠ '&' ∧ c ≠ '=' ∧ c ≠ '#' ∧ c ≠ '%' ∧ c ≠ '+'

/-- A string of verbatim characters. -/
def plainValue (s : String) : Bool := s.toList.all plainChar

/-! ## `signed_request` and the response model -/

/-- An HTTP response as surfaced to the library: status code and raw body. -/
structure HttpResponse where
  status : Nat
  body : String
deriving DecidableEq, Repr

/-- The outcome of a library call, covering the error taxonomy the source
can produce plus the panic outcome of an out-of-bounds index. -/
inductive Outcome (α : Type) where
  /-- `Ok(value)`. -/
  | ok (a : α) : Outcome α
  /-- `error_for_status` failed: non-success HTTP status. -/
  | requestFailed (status : Nat) : Outcome α
  /-- `response.json()` failed to decode the body. -/
  | decodeError : Outcome α
  /-- the `format_err!("oauth_tokens not both in response: …")` failure. -/
  | authIncomplete (msg : String) : Outcome α
  /-- the thread panicked (index out of bounds). -/
  | panicked : Outcome α
deriving DecidableEq, Repr

/-- The production base URL constant `URL`. -/
def baseURL : String := "https://www.instapaper.com"

/-- Lines 250–259 of `signed_request`: the token argument passed to
`oauth1::authorize`.  A token is used iff `oauth_key` is present, and each
absent field is replaced by the empty string inside the token. -/
def signedRequestToken (c : Client) : Option (String × String) :=
  let token := (c.oauth_key.getD "", c.oauth_secret.getD "")
  if c.oauth_key.isSome then some token else none

/-- The observable content of the POST built by `signed_request`: the
action's full URL, the form parameters, the client whose credentials sign
the request, and the token argument handed to the signer. -/
structure SentRequest where
  action : String
  url : String
  params : List (String × String)
  signer : Client
  token : Option (String × String)
deriving Repr

/-- The request `signed_request action params client` sends. -/
def signedRequestSent (action : String) (params : List (String × String))
    (c : Client) : SentRequest :=
  { action := action
    url := baseURL ++ "/api/1.1/" ++ action
    params := params
    signer := c
    token := signedRequestToken c }

/-- `http_client.execute(request)?.error_for_status()`: reqwest's
`error_for_status` fails exactly on client-error (400–499) and server-error
(500–599) statuses and otherwise hands the response on unchanged. -/
def signedRequestRecv (resp : HttpResponse) : Except Nat String :=
  if 400 ≤ resp.status ∧ resp.status ≤ 599 then .error resp.status
  else .ok resp.body

/-! ## `authenticate` -/

/-- The parameter map built at the top of `authenticate`:
`x_auth_username`, `x_auth_password`, `x_auth_mode = "client_auth"`. -/
def authParams (username password : String) : List (String × String) :=
  hmInsert "x_auth_mode" "client_auth"
    (hmInsert "x_auth_password" password
      (hmInsert "x_auth_username" username []))

/-- The intermediate client `authenticate` constructs to sign the exchange
request: the consumer credentials with both oauth fields `None`. -/
def authClient (consumer_key consumer_secret : String) : Client :=
  { consumer_key := consumer_key
    consumer_secret := consumer_secret
    oauth_key := none
    oauth_secret := none }

/-- The exchange request `authenticate username password ck cs` sends. -/
def authenticateSent (username password consumer_key consumer_secret : String) :
    SentRequest :=
  signedRequestSent "oauth/access_token" (authParams username password)
    (authClient consumer_key consumer_secret)

/-- The `format!("https://junk.com/?{}", qline)` string whose parse failure
message reports the raw response body. -/
def qlineOf (body : String) : String := "https://junk.com/?" ++ body

/-- Lines 170–188 of `authenticate`: run the exchange request against a
response, parse the body as query pairs collected into a `HashMap`, and
either fail (`RequestFailed`, or `AuthResponseIncomplete` with the
reconstructed query string) or return the client completed with the parsed
token pair. -/
def authenticate (username password consumer_key consumer_secret : String)
    (resp : HttpResponse) : Outcome Client :=
  let client := authClient consumer_key consumer_secret
  match signedRequestRecv resp with
  | .error s => .requestFailed s
  | .ok body =>
    let qline := qlineOf body
    let query_params := hmFromIter (parseQueryPairs body)
    let oauth_token := hmGet query_params "oauth_token"
    let oauth_secret_token := hmGet query_params "oauth_token_secret"
    if oauth_token.isNone ∨ oauth_secret_token.isNone then
      .authIncomplete ("oauth_tokens not both in response: " ++ qline)
    else
      .ok { client with
              oauth_key := some (oauth_token.getD "")
              oauth_secret := some (oauth_secret_token.getD "") }

/-! ## `serde_json`: JSON values, parsing, and the derived decoders

JSON numbers are kept as their literal lexeme text (the source's `f64`
fields are modelled by that literal; no claim depends on floating-point
value semantics, and `i64` fields are decoded from integer lexemes into
`Int` with the `i64` range check).  The derived struct decoders look each
field up by name, ignore unknown fields, and fail on a missing required
field or a type mismatch, as `serde` does. -/

/-- A JSON value. -/
inductive Json where
  | null : Json
  | bool (b : Bool) : Json
  | num (lexeme : String) : Json
  | str (s : String) : Json
  | arr (items : List Json) : Json
  | obj (fields : List (String × Json)) : Json
deriving Repr, Inhabited

/-- JSON whitespace. -/
def jsonWs (c : Char) : Bool := c = ' ' ∨ c = '\t' ∨ c = '\n' ∨ c = '\r'

/-- Drop leading JSON whitespace. -/
def skipWs (l : List Char) : List Char := l.dropWhile jsonWs

/-- Parse the remainder of a JSON string literal (after the opening quote):
returns the decoded content and the text after the closing quote.  Raw
control characters are rejected; the escapes `\" \\ \/ \b \f \n \r \t \uXXXX`
are decoded (a `\u` escape at code-unit granularity). -/
def parseStringBody : Nat → List Char → Option (List Char × List Char)
  | 0, _ => none
  | fuel + 1, l =>
    match l with
    | [] => none
    | c :: rest =>
      if c = '"' then some ([], rest)
      else if c = '\\' then
        match rest with
        | e :: rest2 =>
          if e = 'u' then
            match rest2 with
            | a :: b :: c2 :: d :: rest3 =>
              if isHexDigit a ∧ isHexDigit b ∧ isHexDigit c2 ∧ isHexDigit d then
                (parseStringBody fuel rest3).map fun (s, r) =>
                  (Char.ofNat (((hexVal a * 16 + hexVal b) * 16 + hexVal c2) * 16
                    + hexVal d) :: s, r)
              else none
            | _ => none
          else
            let dec : Option Char :=
              if e = '"' then some '"'
              else if e = '\\' then some '\\'
              else if e = '/' then some '/'
              else if e = 'b' then some (Char.ofNat 8)
              else if e = 'f' then some (Char.ofNat 12)
              else if e = 'n' then some '\n'
              else if e = 'r' then some '\r'
              else if e = 't' then some '\t'
              else none
            match dec with
            | some d => (parseStringBody fuel rest2).map fun (s, r) => (d :: s, r)
            | none => none
        | [] => none
      else if c.toNat < 32 then none
      else (parseStringBody fuel rest).map fun (s, r) => (c :: s, r)

/-- Parse a JSON number lexeme: `-? (0 | [1-9][0-9]*) (. [0-9]+)? ([eE][+-]?[0-9]+)?`.
Returns the lexeme and the remaining text. -/
def parseNumberLex (l : List Char) : Option (List Char × List Char) :=
  let (sign, l1) : List Char × List Char :=
    match l with
    | '-' :: r => (['-'], r)
    | _ => ([], l)
  let intPart : Option (List Char × List Char) :=
    match l1 with
    | '0' :: r => some (['0'], r)
    | c :: r =>
      if c.isDigit ∧ c ≠ '0' then
        some (c :: r.takeWhile Char.isDigit, r.dropWhile Char.isDigit)
      else none
    | [] => none
  match intPart with
  | none => none
  | some (ip, l2) =>
    let fracPart : Option (List Char × List Char) :=
      match l2 with
      | '.' :: r =>
        if (r.takeWhile Char.isDigit) = [] then none
        else some ('.' :: r.takeWhile Char.isDigit, r.dropWhile Char.isDigit)
      | _ => some ([], l2)
    match fracPart with
    | none => none
    | some (fp, l3) =>
      let expPart : Option (List Char × List Char) :=
        match l3 with
        | e :: r =>
          if e = 'e' ∨ e = 'E' then
            let (es, r2) : List Char × List Char :=
              match r with
              | '+' :: r2 => (['+'], r2)
              | '-' :: r2 => (['-'], r2)
              | _ => ([], r)
            if (r2.takeWhile Char.isDigit) = [] then none
            else some (e :: es ++ r2.takeWhile Char.isDigit, r2.dropWhile Char.isDigit)
          else some ([], l3)
        | [] => some ([], l3)
      match expPart with
      | none => none
      | some (ep, l4) => some (sign ++ ip ++ fp ++ ep, l4)

mutual

/-- Parse one JSON value (leading whitespace allowed); returns the value and
the remaining text. -/
def parseVal : Nat → List Char → Option (Json × List Char)
  | 0, _ => none
  | fuel + 1, l =>
    match skipWs l with
    | [] => none
    | c :: rest =>
      if c = 'n' then
        match rest with
        | 'u' :: 'l' :: 'l' :: r => some (.null, r)
        | _ => none
      else if c = 't' then
        match rest with
        | 'r' :: 'u' :: 'e' :: r => some (.bool true, r)
        | _ => none
      else if c = 'f' then
        match rest with
        | 'a' :: 'l' :: 's' :: 'e' :: r => some (.bool false, r)
        | _ => none
      else if c = '"' then
        (parseStringBody (rest.length + 1) rest).map fun (s, r) =>
          (.str (String.mk s), r)
      else if c = '[' then
        match skipWs rest with
        | ']' :: r => some (.arr [], r)
        | l2 => (parseElems fuel l2).map fun (items, r) => (.arr items, r)
      else if c = '{' then
        match skipWs rest with
        | '}' :: r => some (.obj [], r)
        | l2 => (parseFields fuel l2).map fun (fields, r) => (.obj fields, r)
      else
        (parseNumberLex (c :: rest)).map fun (lex, r) => (.num (String.mk lex), r)

/-- Parse the elements of a non-empty JSON array body, up to and including
the closing `]`. -/
def parseElems : Nat → List Char → Option (List Json × List Char)
  | 0, _ => none
  | fuel + 1, l =>
    match parseVal fuel l with
    | none => none
    | some (j, r) =>
      match skipWs r with
      | ',' :: r2 => (parseElems fuel r2).map fun (items, r3) => (j :: items, r3)
      | ']' :: r2 => some ([j], r2)
      | _ => none

/-- Parse the fields of a non-empty JSON object body, up to and including
the closing `}`. -/
def parseFields : Nat → List Char → Option (List (String × Json) × List Char)
  | 0, _ => none
  | fuel + 1, l =>
    match skipWs l with
    | '"' :: r =>
      match parseStringBody (r.length + 1) r with
      | none => none
      | some (key, r2) =>
        match skipWs r2 with
        | ':' :: r3 =>
          match parseVal fuel r3 with
          | none => none
          | some (j, r4) =>
            match skipWs r4 with
            | ',' :: r5 =>
              (parseFields fuel r5).map fun (fields, r6) =>
                ((String.mk key, j) :: fields, r6)
            | '}' :: r5 => some ([(String.mk key, j)], r5)
            | _ => none
        | _ => none
    | _ => none

end

/-- `serde_json::from_str` on a whole body: parse one value and require only
whitespace after it. -/
def parseJson (s : String) : Option Json :=
  match parseVal (2 * s.length + 2) s.toList with
  | some (j, rest) => if skipWs rest = [] then some j else none
  | none => none

/-! ## Decoded response records and their `serde`-derived decoders -/

/-- `struct User` (`#[serde(rename)]`: `kind` ← `"type"`,
`subscription` ← `"subscription_is_active"`). -/
structure User where
  username : String
  user_id : Int
  kind : String
  subscription : String
deriving DecidableEq, Repr, Inhabited

/-- `struct Bookmark` (`kind` ← `"type"`); the `f64` fields
`progress_timestamp` and `time` are modelled by their number lexemes. -/
structure Bookmark where
  title : String
  hash : String
  bookmark_id : Int
  progress_timestamp : String
  description : String
  url : String
  time : String
  starred : String
  kind : String
  private_source : String
deriving DecidableEq, Repr, Inhabited

/-- `struct Highlight` (`kind` ← `"type"`). -/
structure Highlight where
  highlight_id : Int
  bookmark_id : Int
  text : String
  note : Option String
  time : Int
  position : Int
  kind : String
deriving DecidableEq, Repr, Inhabited

/-- `struct List` from the source (named `BookmarksList` here because `List`
is taken in Lean): bookmarks, user, highlights, and `delete_ids` with
`#[serde(default)]`. -/
structure BookmarksList where
  bookmarks : List Bookmark
  user : User
  highlights : List Highlight
  delete_ids : List Int
deriving DecidableEq, Repr, Inhabited

/-- Look a field up in a decoded JSON object (first occurrence). -/
def jGet (fields : List (String × Json)) (k : String) : Option Json :=
  fields.lookup k

/-- Decode a JSON value as a Rust `String`. -/
def asStr : Json → Option String
  | .str s => some s
  | _ => none

/-- Decode a JSON value as a Rust `i64`: an integer lexeme (no fraction or
exponent) within the `i64` range. -/
def asI64 : Json → Option Int
  | .num lex =>
    if lex.toList.all fun c => c = '-' ∨ c.isDigit then
      match lex.toInt? with
      | some n => if -(2 ^ 63) ≤ n ∧ n < 2 ^ 63 then some n else none
      | none => none
    else none
  | _ => none

/-- Decode a JSON value as a Rust `f64`, modelled by the number lexeme. -/
def asF64 : Json → Option String
  | .num lex => some lex
  | _ => none

/-- Decode a JSON value as `Option<String>` (`null` is `None`); a missing
field also decodes to `None`, handled at the struct decoders. -/
def asOptStr : Json → Option (Option String)
  | .null => some none
  | .str s => some (some s)
  | _ => none

/-- The derived `Deserialize` for `User`. -/
def decodeUser : Json → Option User
  | .obj fields => do
    let username ← jGet fields "username" >>= asStr
    let user_id ← jGet fields "user_id" >>= asI64
    let kind ← jGet fields "type" >>= asStr
    let subscription ← jGet fields "subscription_is_active" >>= asStr
    pure { username, user_id, kind, subscription }
  | _ => none

/-- The derived `Deserialize` for `Bookmark`. -/
def decodeBookmark : Json → Option Bookmark
  | .obj fields => do
    let title ← jGet fields "title" >>= asStr
    let hash ← jGet fields "hash" >>= asStr
    let bookmark_id ← jGet fields "bookmark_id" >>= asI64
    let progress_timestamp ← jGet fields "progress_timestamp" >>= asF64
    let description ← jGet fields "description" >>= asStr
    let url ← jGet fields "url" >>= asStr
    let time ← jGet fields "time" >>= asF64
    let starred ← jGet fields "starred" >>= asStr
    let kind ← jGet fields "type" >>= asStr
    let private_source ← jGet fields "private_source" >>= asStr
    pure { title, hash, bookmark_id, progress_timestamp, description, url,
           time, starred, kind, private_source }
  | _ => none

/-- The derived `Deserialize` for `Highlight`. -/
def decodeHighlight : Json → Option Highlight
  | .obj fields => do
    let highlight_id ← jGet fields "highlight_id" >>= asI64
    let bookmark_id ← jGet fields "bookmark_id" >>= asI64
    let text ← jGet fields "text" >>= asStr
    let note ←
      match jGet fields "note" with
      | none => some none
      | some j => asOptStr j
    let time ← jGet fields "time" >>= asI64
    let position ← jGet fields "position" >>= asI64
    let kind ← jGet fields "type" >>= asStr
    pure { highlight_id, bookmark_id, text, note, time, position, kind }
  | _ => none

/-- The derived `Deserialize` for the source's `List` struct
(`delete_ids` defaults to `[]` when the field is missing). -/
def decodeBookmarksList : Json → Option BookmarksList
  | .obj fields => do
    let bookmarks ←
      match jGet fields "bookmarks" with
      | some (.arr items) => items.mapM decodeBookmark
      | _ => none
    let user ← jGet fields "user" >>= decodeUser
    let highlights ←
      match jGet fields "highlights" with
      | some (.arr items) => items.mapM decodeHighlight
      | _ => none
    let delete_ids ←
      match jGet fields "delete_ids" with
      | none => some []
      | some (.arr items) => items.mapM asI64
      | some _ => none
    pure { bookmarks, user, highlights, delete_ids }
  | _ => none

/-- `response.json::<Vec<T>>()`: the body must parse as a JSON array whose
every element decodes as `T`. -/
def decodeVec (dec : Json → Option α) (body : String) : Option (List α) :=
  (parseJson body).bind fun j =>
    match j with
    | .arr items => items.mapM dec
    | _ => none

/-- The source's `xs[0].clone()` on a freshly decoded `Vec`: the first
element, or a panic (index out of bounds) when the vector is empty. -/
def indexZero : List α → Outcome α
  | [] => .panicked
  | x :: _ => .ok x

/-! ## The Client dispatch methods -/

/-- The request `verify` sends: action `account/verify_credentials`, empty
parameter map. -/
def Client.verifySent (c : Client) : SentRequest :=
  signedRequestSent "account/verify_credentials" [] c

/-- `Client::verify` applied to a response: status check, decode a
`Vec<User>`, take element `0`. -/
def Client.verify (c : Client) (resp : HttpResponse) : Outcome User :=
  match signedRequestRecv resp with
  | .error s => .requestFailed s
  | .ok body =>
    match decodeVec decodeUser body with
    | none => .decodeError
    | some users => indexZero users

/-- The parameter map `archive` builds: `bookmark_id` stringified. -/
def archiveParams (bookmark_id : Int) : List (String × String) :=
  hmInsert "bookmark_id" (toString bookmark_id) []

/-- The request `archive` sends. -/
def Client.archiveSent (c : Client) (bookmark_id : Int) : SentRequest :=
  signedRequestSent "bookmarks/archive" (archiveParams bookmark_id) c

/-- `Client::archive` applied to a response. -/
def Client.archive (c : Client) (bookmark_id : Int) (resp : HttpResponse) :
    Outcome Bookmark :=
  match signedRequestRecv resp with
  | .error s => .requestFailed s
  | .ok body =>
    match decodeVec decodeBookmark body with
    | none => .decodeError
    | some bookmarks => indexZero bookmarks

/-- The parameter map `bookmarks_in` builds: `limit = "500"` and
`folder_id`. -/
def bookmarksInParams (folder : String) : List (String × String) :=
  hmInsert "folder_id" folder (hmInsert "limit" "500" [])

/-- The request `bookmarks_in` sends. -/
def Client.bookmarksInSent (c : Client) (folder : String) : SentRequest :=
  signedRequestSent "bookmarks/list" (bookmarksInParams folder) c

/-- `Client::bookmarks_in` applied to a response: status check, then a
direct decode of the `List` struct (no array unwrapping). -/
def Client.bookmarks_in (c : Client) (folder : String) (resp : HttpResponse) :
    Outcome BookmarksList :=
  match signedRequestRecv resp with
  | .error s => .requestFailed s
  | .ok body =>
    match (parseJson body).bind decodeBookmarksList with
    | none => .decodeError
    | some l => .ok l

/-- The request `bookmarks` sends: exactly the one `bookmarks_in` sends for
`"unread"`. -/
def Client.bookmarksSent (c : Client) : SentRequest :=
  Client.bookmarksInSent c "unread"

/-- `Client::bookmarks`: `self.bookmarks_in("unread")`. -/
def Client.bookmarks (c : Client) (resp : HttpResponse) : Outcome BookmarksList :=
  Client.bookmarks_in c "unread" resp

/-- The parameter map `add` builds: always `url`; `title` and `description`
inserted only when non-empty. -/
def addParams (url title description : String) : List (String × String) :=
  let params := hmInsert "url" url []
  let params := if title = "" then params else hmInsert "title" title params
  let params :=
    if description = "" then params else hmInsert "description" description params
  params

/-- The request `add` sends. -/
def Client.addSent (c : Client) (url title description : String) : SentRequest :=
  signedRequestSent "bookmarks/add" (addParams url title description) c

/-- `Client::add` applied to a response. -/
def Client.add (c : Client) (url title description : String)
    (resp : HttpResponse) : Outcome Bookmark :=
  match signedRequestRecv resp with
  | .error s => .requestFailed s
  | .ok body =>
    match decodeVec decodeBookmark body with
    | none => .decodeError
    | some bookmarks => indexZero bookmarks

/-! ## The request signer

`signed_request` delegates header construction to `oauth1::authorize`, a
dependency outside this repository's sources, so the signer below is
modelled from the specification (§4.1): percent-encoding, lexicographic
parameter sorting into the signature base string, HMAC-SHA1, and the
`OAuth key="value", ...` header syntax.  The nonce and timestamp, generated
fresh per call in the crate, are explicit arguments here. -/

/-- Truncate to a 32-bit word. -/
def w32 (n : Nat) : Nat := n % 2 ^ 32

/-- Rotate a 32-bit word left by `n` bits. -/
def rotl (n x : Nat) : Nat := w32 (x * 2 ^ n + x / 2 ^ (32 - n))

/-- SHA-1 padding: append `0x80`, zero bytes to 56 mod 64, and the bit
length as a big-endian 64-bit integer. -/
def sha1Pad (msg : List Nat) : List Nat :=
  let padZeros := (55 - msg.length % 64 + 64) % 64
  msg ++ [128] ++ List.replicate padZeros 0 ++
    (List.range 8).map fun i => 8 * msg.length / 2 ^ (8 * (7 - i)) % 256

/-- Split a byte list into successive 64-byte chunks (`fuel`-driven;
callers pass the length). -/
def chunksOf64 : Nat → List Nat → List (List Nat)
  | 0, _ => []
  | _, [] => []
  | fuel + 1, l => l.take 64 :: chunksOf64 fuel (l.drop 64)

/-- Assemble big-endian 32-bit words from bytes. -/
def bytesToWords : List Nat → List Nat
  | b0 :: b1 :: b2 :: b3 :: rest =>
    (((b0 * 256 + b1) * 256 + b2) * 256 + b3) :: bytesToWords rest
  | _ => []

/-- The 80-entry SHA-1 message schedule of one chunk. -/
def sha1Schedule (chunk : List Nat) : Array Nat :=
  (List.range' 16 64).foldl
    (fun w i =>
      w.push (rotl 1 (w.getD (i - 3) 0 ^^^ w.getD (i - 8) 0 ^^^
        w.getD (i - 14) 0 ^^^ w.getD (i - 16) 0)))
    (bytesToWords chunk).toArray

/-- Bitwise complement on a 32-bit word. -/
def wNot (x : Nat) : Nat := x ^^^ (2 ^ 32 - 1)

/-- One SHA-1 compression round over the running state. -/
def sha1Round (w : Array Nat) (st : Nat × Nat × Nat × Nat × Nat) (i : Nat) :
    Nat × Nat × Nat × Nat × Nat :=
  let (a, b, c, d, e) := st
  let f :=
    if i < 20 then (b &&& c) ||| (wNot b &&& d)
    else if i < 40 then b ^^^ c ^^^ d
    else if i < 60 then (b &&& c) ||| (b &&& d) ||| (c &&& d)
    else b ^^^ c ^^^ d
  let k :=
    if i < 20 then 1518500249
    else if i < 40 then 1859775393
    else if i < 60 then 2400959708
    else 3395469782
  let temp := w32 (rotl 5 a + f + e + k + w.getD i 0)
  (temp, a, rotl 30 b, c, d)

/-- SHA-1 compression of one 64-byte chunk into the hash state. -/
def sha1Compress (h : Nat × Nat × Nat × Nat × Nat) (chunk : List Nat) :
    Nat × Nat × Nat × Nat × Nat :=
  let w := sha1Schedule chunk
  let (a, b, c, d, e) := (List.range 80).foldl (sha1Round w) h
  let (h0, h1, h2, h3, h4) := h
  (w32 (h0 + a), w32 (h1 + b), w32 (h2 + c), w32 (h3 + d), w32 (h4 + e))

/-- Big-endian bytes of a 32-bit word. -/
def wordBytes (x : Nat) : List Nat :=
  [x / 2 ^ 24 % 256, x / 2 ^ 16 % 256, x / 2 ^ 8 % 256, x % 256]

/-- SHA-1 of a byte list. -/
def sha1 (msg : List Nat) : List Nat :=
  let padded := sha1Pad msg
  let (h0, h1, h2, h3, h4) :=
    (chunksOf64 padded.length padded).foldl sha1Compress
      (1732584193, 4023233417, 2562383102, 271733878, 3285377520)
  wordBytes h0 ++ wordBytes h1 ++ wordBytes h2 ++ wordBytes h3 ++ wordBytes h4

/-- HMAC-SHA1 of a message under a key. -/
def hmacSha1 (key msg : List Nat) : List Nat :=
  let key := if 64 < key.length then sha1 key else key
  let key := key ++ List.replicate (64 - key.length) 0
  sha1 ((key.map fun b => b ^^^ 92) ++ sha1 ((key.map fun b => b ^^^ 54) ++ msg))

/-- The base64 alphabet. -/
def base64Chars : List Char :=
  "ABCDEFGHIJKLMNOPQRSTUVWXYZabcdefghijklmnopqrstuvwxyz0123456789+/".toList

/-- Standard base64 encoding with `=` padding. -/
def base64Encode : List Nat → List Char
  | [] => []
  | [b0] =>
    [base64Chars.getD (b0 / 4) 'A', base64Chars.getD (b0 % 4 * 16) 'A', '=', '=']
  | [b0, b1] =>
    [base64Chars.getD (b0 / 4) 'A', base64Chars.getD (b0 % 4 * 16 + b1 / 16) 'A',
     base64Chars.getD (b1 % 16 * 4) 'A', '=']
  | b0 :: b1 :: b2 :: rest =>
    base64Chars.getD (b0 / 4) 'A' :: base64Chars.getD (b0 % 4 * 16 + b1 / 16) 'A' ::
      base64Chars.getD (b1 % 16 * 4 + b2 / 64) 'A' :: base64Chars.getD (b2 % 64) 'A' ::
      base64Encode rest

/-- The UTF-8 bytes of a string. -/
def strBytes (s : String) : List Nat := s.toUTF8.toList.map (·.toNat)

/-- Hex digit character (uppercase). -/
def hexDigitChar (n : Nat) : Char := "0123456789ABCDEF".toList.getD n '0'

/-- Is the byte an RFC 3986 unreserved ASCII character? -/
def isUnreservedByte (b : Nat) : Bool :=
  (48 ≤ b ∧ b ≤ 57) ∨ (65 ≤ b ∧ b ≤ 90) ∨ (97 ≤ b ∧ b ≤ 122) ∨
    b = 45 ∨ b = 46 ∨ b = 95 ∨ b = 126

/-- OAuth1 percent-encoding of a string: unreserved bytes kept, every other
byte written as `%XY` with uppercase hex. -/
def percentEncode (s : String) : String :=
  String.mk ((strBytes s).foldr
    (fun b acc =>
      if isUnreservedByte b then Char.ofNat b :: acc
      else '%' :: hexDigitChar (b / 16) :: hexDigitChar (b % 16) :: acc)
    [])

/-- Join strings with a separator. -/
def joinSep (sep : String) : List String → String
  | [] => ""
  | [x] => x
  | x :: xs => x ++ sep ++ joinSep sep xs

/-- Sort a list of strings lexicographically (the `Vec::sort` the signer
applies before joining). -/
def sortStrings (l : List String) : List String :=
  List.insertionSort (· ≤ ·) l

/-- The sorted, encoded `k=v&…` query the signature base string hashes. -/
def toQuery (params : List (String × String)) : String :=
  joinSep "&"
    (sortStrings (params.map fun p => percentEncode p.1 ++ "=" ++ percentEncode p.2))

/-- The OAuth1 signature: base64 of the HMAC-SHA1 of the signature base
string `METHOD&enc(uri)&enc(query)` under the key
`enc(consumer_secret)&enc(token_secret or "")`. -/
def genSignature (method uri query consumerSecret : String)
    (tokenSecret : Option String) : String :=
  let base := percentEncode method ++ "&" ++ percentEncode uri ++ "&" ++
    percentEncode query
  let key := percentEncode consumerSecret ++ "&" ++
    percentEncode (tokenSecret.getD "")
  String.mk (base64Encode (hmacSha1 (strBytes key) (strBytes base)))

/-- Modelled from the spec: `oauth1::authorize`, the request signer
`signed_request` calls, which lives in the `oauth1` dependency rather than
in this repository's sources.  Per §4.1: merge the `oauth_*` protocol
parameters (consumer key, nonce, signature method, timestamp, version, and
the token key when a token is present) into the request parameters, sign
the sorted encoded parameter set, and emit the `OAuth key="value", ...`
header over the sorted `oauth_*` pairs.  Nonce and timestamp are the
explicit final arguments. -/
def authorize (method uri : String) (consumer : String × String)
    (token : Option (String × String)) (params : List (String × String))
    (nonce timestamp : String) : String :=
  let ps := hmInsert "oauth_version" "1.0"
    (hmInsert "oauth_timestamp" timestamp
      (hmInsert "oauth_signature_method" "HMAC-SHA1"
        (hmInsert "oauth_nonce" nonce
          (hmInsert "oauth_consumer_key" consumer.1 params))))
  let ps :=
    match token with
    | some t => hmInsert "oauth_token" t.1 ps
    | none => ps
  let signature := genSignature method uri (toQuery ps) consumer.2 (token.map (·.2))
  let ps := hmInsert "oauth_signature" signature ps
  let pairs := sortStrings ((ps.filter fun p => "oauth_".isPrefixOf p.1).map
    fun p => p.1 ++ "=\x22" ++ percentEncode p.2 ++ "\x22")
  "OAuth " ++ joinSep ", " pairs

/-- The Authorization header `signed_request action params client` attaches,
at a given nonce and timestamp: `oauth1::authorize("POST", url, consumer
token, token-if-oauth_key, params)` (lines 261–276). -/
def signedRequestHeader (action : String) (params : List (String × String))
    (c : Client) (nonce timestamp : String) : String :=
  authorize "POST" (baseURL ++ "/api/1.1/" ++ action)
    (c.consumer_key, c.consumer_secret) (signedRequestToken c) params
    nonce timestamp

/-! ## Helper lemmas -/

/-- A non-error status passes `error_for_status` and surfaces the body. -/
theorem signedRequestRecv_ok (s : Nat) (body : String)
    (h : ¬ (400 ≤ s ∧ s ≤ 599)) :
    signedRequestRecv ⟨s, body⟩ = .ok body := by
  simp [signedRequestRecv, h]

/-- A 4xx/5xx status fails `error_for_status` with the status code. -/
theorem signedRequestRecv_err (s : Nat) (body : String)
    (h1 : 400 ≤ s) (h2 : s ≤ 599) :
    signedRequestRecv ⟨s, body⟩ = .error s := by
  simp [signedRequestRecv, h1, h2]

/-- `authenticate` succeeds when both tokens are found, completing the
intermediate client with the parsed pair. -/
theorem authenticate_ok (u p ck cs : String) (s : Nat) (body T S : String)
    (hs : ¬ (400 ≤ s ∧ s ≤ 599))
    (hT : hmGet (hmFromIter (parseQueryPairs body)) "oauth_token" = some T)
    (hS : hmGet (hmFromIter (parseQueryPairs body)) "oauth_token_secret" = some S) :
    authenticate u p ck cs ⟨s, body⟩ = .ok ⟨ck, cs, some T, some S⟩ := by
  simp [authenticate, signedRequestRecv_ok s body hs, hT, hS, authClient]

/-- `authenticate` fails with the reconstructed query string when either
token is missing from the parsed pairs. -/
theorem authenticate_err (u p ck cs : String) (s : Nat) (body : String)
    (hs : ¬ (400 ≤ s ∧ s ≤ 599))
    (h : hmGet (hmFromIter (parseQueryPairs body)) "oauth_token" = none ∨
         hmGet (hmFromIter (parseQueryPairs body)) "oauth_token_secret" = none) :
    authenticate u p ck cs ⟨s, body⟩ =
      .authIncomplete ("oauth_tokens not both in response: " ++ qlineOf body) := by
  rcases h with h | h <;>
    simp [authenticate, signedRequestRecv_ok s body hs, h, qlineOf]

/-- `dropWhile` is the identity when every element fails the predicate. -/
theorem dropWhile_eq_self_of_all {p : Char → Bool} :
    ∀ {l : List Char}, (∀ c ∈ l, p c = false) → l.dropWhile p = l
  | [], _ => rfl
  | c :: rest, h => by
    simp [List.dropWhile, h c (List.mem_cons_self c rest)]

/-- The trailing trim keeps a list of code points above `U+0020`
unchanged. -/
theorem trimEnd_eq_self {l : List Char} (h : ∀ c ∈ l, 32 < c.toNat) :
    trimEnd l = l := by
  have hall : l.reverse.dropWhile (fun c => decide (c.toNat ≤ 32)) = l.reverse := by
    apply dropWhile_eq_self_of_all
    intro c hc
    have h32 := h c (List.mem_reverse.mp hc)
    simp
    omega
  unfold trimEnd
  rw [hall, List.reverse_reverse]

/-- `stripCtl` keeps a list free of tab, LF and CR unchanged. -/
theorem stripCtl_eq_self {l : List Char}
    (h : ∀ c ∈ l, c ≠ '\t' ∧ c ≠ '\n' ∧ c ≠ '\r') : stripCtl l = l :=
  List.filter_eq_self.mpr fun c hc => by
    have := h c hc
    simp [this.1, this.2.1, this.2.2]

/-- `queryPart` keeps a `#`-free list unchanged. -/
theorem queryPart_eq_self {l : List Char} (h : ∀ c ∈ l, c ≠ '#') :
    queryPart l = l :=
  List.takeWhile_eq_self_iff.mpr fun c hc => by simp [h c hc]

/-- Splitting a separator-free list yields that single piece. -/
theorem splitOnChar_sepFree (sep : Char) {l : List Char}
    (h : ∀ c ∈ l, c ≠ sep) : splitOnChar sep l = [l] := by
  induction l with
  | nil => rfl
  | cons c rest ih =>
    have hc : c ≠ sep := h c (List.mem_cons_self c rest)
    have hr := ih fun x hx => h x (List.mem_cons_of_mem c hx)
    simp [splitOnChar, hc, hr]

/-- Splitting peels off a separator-free first piece. -/
theorem splitOnChar_append (sep : Char) {a : List Char} (b : List Char)
    (h : ∀ c ∈ a, c ≠ sep) :
    splitOnChar sep (a ++ sep :: b) = a :: splitOnChar sep b := by
  induction a with
  | nil => simp [splitOnChar]
  | cons c rest ih =>
    have hc : c ≠ sep := h c (List.mem_cons_self c rest)
    have hr := ih fun x hx => h x (List.mem_cons_of_mem c hx)
    simp [splitOnChar, hc, hr]

/-- `takeWhile` collects exactly a satisfying prelude before a failing
element. -/
theorem takeWhile_append_stop {p : Char → Bool} {a : List Char} (x : Char)
    (b : List Char) (ha : ∀ c ∈ a, p c) (hx : ¬ p x) :
    (a ++ x :: b).takeWhile p = a := by
  induction a with
  | nil => simp [List.takeWhile, hx]
  | cons c rest ih =>
    have hc := ha c (List.mem_cons_self c rest)
    have hr := ih fun y hy => ha y (List.mem_cons_of_mem c hy)
    simp [List.takeWhile, hc, hr]

/-- `dropWhile` drops exactly a satisfying prelude before a failing
element. -/
theorem dropWhile_append_stop {p : Char → Bool} {a : List Char} (x : Char)
    (b : List Char) (ha : ∀ c ∈ a, p c) (hx : ¬ p x) :
    (a ++ x :: b).dropWhile p = x :: b := by
  induction a with
  | nil => simp [List.dropWhile, hx]
  | cons c rest ih =>
    have hc := ha c (List.mem_cons_self c rest)
    have hr := ih fun y hy => ha y (List.mem_cons_of_mem c hy)
    simp [List.dropWhile, hc, hr]

/-- Form-urlencoded decoding keeps a string of verbatim characters
unchanged. -/
theorem pdec_eq_self {l : List Char} (h : ∀ c ∈ l, plainChar c) :
    pdec l = l := by
  induction l with
  | nil => rfl
  | cons c rest ih =>
    have hc := h c (List.mem_cons_self c rest)
    simp only [plainChar, decide_eq_true_eq] at hc
    have hr := ih fun x hx => h x (List.mem_cons_of_mem c hx)
    rw [pdec.eq_def]
    simp [hc.2.2.2.2.1, hc.2.2.2.2.2, hr]

/-- A `name=value` piece of verbatim characters parses to that pair. -/
theorem parsePair_eq {k v : List Char} (hk : ∀ c ∈ k, plainChar c)
    (hv : ∀ c ∈ v, plainChar c) :
    parsePair (k ++ '=' :: v) = (String.mk k, String.mk v) := by
  have hkeq : ∀ c ∈ k, (fun c => decide (c ≠ '=')) c = true := by
    intro c hc
    have := hk c hc
    simp only [plainChar, decide_eq_true_eq] at this
    simp [this.2.2.1]
  have h1 : (k ++ '=' :: v).takeWhile (fun c => decide (c ≠ '=')) = k :=
    takeWhile_append_stop '=' v hkeq (by simp)
  have h2 : (k ++ '=' :: v).dropWhile (fun c => decide (c ≠ '=')) = '=' :: v :=
    dropWhile_append_stop '=' v hkeq (by simp)
  simp only [parsePair]
  rw [h1, h2]
  simp [pdec_eq_self hk, pdec_eq_self hv]

/-- A body whose text is `k1=v1&k2=v2` with verbatim names and values
parses to exactly those two pairs. -/
theorem parseQueryPairs_two {body k1 v1 k2 v2 : String}
    (hbody : body.toList =
      k1.toList ++ '=' :: (v1.toList ++ '&' :: (k2.toList ++ '=' :: v2.toList)))
    (hk1 : ∀ c ∈ k1.toList, plainChar c) (hv1 : ∀ c ∈ v1.toList, plainChar c)
    (hk2 : ∀ c ∈ k2.toList, plainChar c) (hv2 : ∀ c ∈ v2.toList, plainChar c) :
    parseQueryPairs body = [(k1, v1), (k2, v2)] := by
  have plain_ne : ∀ (c : Char), plainChar c →
      32 < c.toNat ∧ c ≠ '#' ∧ c ≠ '&' := by
    intro c hc
    simp only [plainChar, decide_eq_true_eq] at hc
    exact ⟨hc.1, hc.2.2.2.1, hc.2.1⟩
  have gt32_ne : ∀ (c : Char), 32 < c.toNat →
      c ≠ '\t' ∧ c ≠ '\n' ∧ c ≠ '\r' := by
    intro c h
    refine ⟨?_, ?_, ?_⟩ <;> rintro rfl <;> exact absurd h (by decide)
  have hmem : ∀ c ∈ body.toList, plainChar c ∨ c = '=' ∨ c = '&' := by
    intro c hc
    rw [hbody] at hc
    simp only [List.mem_append, List.mem_cons] at hc
    rcases hc with h | h | h
    · exact Or.inl (hk1 c h)
    · exact Or.inr (Or.inl h)
    · rcases h with h | h | h
      · exact Or.inl (hv1 c h)
      · exact Or.inr (Or.inr h)
      · rcases h with h | h | h
        · exact Or.inl (hk2 c h)
        · exact Or.inr (Or.inl h)
        · exact Or.inl (hv2 c h)
  have htrim : trimEnd body.toList = body.toList := by
    apply trimEnd_eq_self
    intro c hc
    rcases hmem c hc with h | h | h
    · exact (plain_ne c h).1
    · subst h; decide
    · subst h; decide
  have hstrip : stripCtl body.toList = body.toList := by
    apply stripCtl_eq_self
    intro c hc
    rcases hmem c hc with h | h | h
    · exact gt32_ne c (plain_ne c h).1
    · subst h; refine ⟨by decide, by decide, by decide⟩
    · subst h; refine ⟨by decide, by decide, by decide⟩
  have hquery : queryPart body.toList = body.toList := by
    apply queryPart_eq_self
    intro c hc
    rcases hmem c hc with h | h | h
    · exact (plain_ne c h).2.1
    · subst h; decide
    · subst h; decide
  have hk1amp : ∀ c ∈ k1.toList ++ '=' :: v1.toList, c ≠ '&' := by
    intro c hc
    simp only [List.mem_append, List.mem_cons] at hc
    rcases hc with h | h | h
    · exact (plain_ne c (hk1 c h)).2.2
    · subst h; decide
    · exact (plain_ne c (hv1 c h)).2.2
  have hk2amp : ∀ c ∈ k2.toList ++ '=' :: v2.toList, c ≠ '&' := by
    intro c hc
    simp only [List.mem_append, List.mem_cons] at hc
    rcases hc with h | h | h
    · exact (plain_ne c (hk2 c h)).2.2
    · subst h; decide
    · exact (plain_ne c (hv2 c h)).2.2
  have hsplit : splitOnChar '&' body.toList =
      [k1.toList ++ '=' :: v1.toList, k2.toList ++ '=' :: v2.toList] := by
    rw [hbody, show k1.toList ++ '=' :: (v1.toList ++ '&' ::
        (k2.toList ++ '=' :: v2.toList)) =
        (k1.toList ++ '=' :: v1.toList) ++ '&' ::
        (k2.toList ++ '=' :: v2.toList) by simp,
      splitOnChar_append '&' _ hk1amp, splitOnChar_sepFree '&' hk2amp]
  unfold parseQueryPairs
  rw [htrim, hstrip, hquery, hsplit]
  have hne1 : k1.toList ++ '=' :: v1.toList ≠ [] := by simp
  have hne2 : k2.toList ++ '=' :: v2.toList ≠ [] := by simp
  simp only [List.filter, List.map, hne1, hne2, ne_eq, not_false_eq_true,
    List.cons.injEq]
  exact ⟨parsePair_eq hk1 hv1, parsePair_eq hk2 hv2, trivial⟩

/-! ## Claims -/

/-- C1 (code bug): for the single-item endpoints (`verify`, `archive`,
`add`), a 2xx response whose body is the empty JSON array `[]` does NOT
fail with a decode error: the decode of the `Vec` succeeds with an empty
vector and the subsequent `xs[0]` index panics (index out of bounds), which
the evaluations below exhibit. -/
theorem claim_C1 :
    Client.verify ⟨"", "", some "", some ""⟩ ⟨200, "[]"⟩ = .panicked ∧
    Client.archive ⟨"", "", some "", some ""⟩ 42 ⟨200, "[]"⟩ = .panicked ∧
    Client.add ⟨"", "", some "", some ""⟩ "https://sirupsen.com/read" "T" ""
      ⟨200, "[]"⟩ = .panicked :=
  ⟨rfl, rfl, rfl⟩

/-- C3 (counterexample): it is not the case that every non-2xx status makes
a method fail with `RequestFailed`: `error_for_status` passes a 304 through,
and `verify` then proceeds to decode the body (yielding a decode error on a
non-JSON body). -/
theorem claim_C3_counterexample :
    ¬ (∀ (c : Client) (s : Nat) (b : String), ¬ (200 ≤ s ∧ s ≤ 299) →
        Client.verify c ⟨s, b⟩ = .requestFailed s) := by
  intro h
  have h2 := h ⟨"", "", some "", some ""⟩ 304 "x" (by decide)
  have h3 : Client.verify ⟨"", "", some "", some ""⟩ ⟨304, "x"⟩ = .decodeError := rfl
  rw [h3] at h2
  exact absurd h2 (by decide)

/-- C3 (amended): for every Client method and every HTTP response whose
status is a client or server error (400–599), the method fails with
`RequestFailed` carrying the status, for every body whatsoever — the body
is never decoded.  (Statuses outside 400–599, such as 304, pass the check
and proceed to decoding.) -/
theorem claim_C3_amended (c : Client) (folder url title description : String)
    (bookmark_id : Int) (u p ck cs : String) (s : Nat) (body : String)
    (h1 : 400 ≤ s) (h2 : s ≤ 599) :
    Client.verify c ⟨s, body⟩ = .requestFailed s ∧
    Client.archive c bookmark_id ⟨s, body⟩ = .requestFailed s ∧
    Client.add c url title description ⟨s, body⟩ = .requestFailed s ∧
    Client.bookmarks_in c folder ⟨s, body⟩ = .requestFailed s ∧
    Client.bookmarks c ⟨s, body⟩ = .requestFailed s ∧
    authenticate u p ck cs ⟨s, body⟩ = .requestFailed s := by
  have hrec := signedRequestRecv_err s body h1 h2
  refine ⟨?_, ?_, ?_, ?_, ?_, ?_⟩ <;>
    simp [Client.verify, Client.archive, Client.add, Client.bookmarks,
      Client.bookmarks_in, authenticate, hrec]

/-- C3 (witness): the amended statement applied at status 500 with the test
suite's bodies. -/
theorem claim_C3_amended_witness :
    Client.verify ⟨"", "", some "", some ""⟩ ⟨500, "omgggg"⟩ = .requestFailed 500 ∧
    Client.archive ⟨"", "", some "", some ""⟩ 1 ⟨500, "omgggg"⟩ = .requestFailed 500 ∧
    Client.add ⟨"", "", some "", some ""⟩ "https://sirupsen.com/read" "How I Read" ""
      ⟨500, "omgggg"⟩ = .requestFailed 500 ∧
    Client.bookmarks_in ⟨"", "", some "", some ""⟩ "archive" ⟨500, "omgggg"⟩ =
      .requestFailed 500 ∧
    Client.bookmarks ⟨"", "", some "", some ""⟩ ⟨500, "omgggg"⟩ = .requestFailed 500 ∧
    authenticate "username" "password" "key" "secret" ⟨500, "omgggg"⟩ =
      .requestFailed 500 :=
  claim_C3_amended ⟨"", "", some "", some ""⟩ "archive" "https://sirupsen.com/read"
    "How I Read" "" 1 "username" "password" "key" "secret" 500 "omgggg"
    (by decide) (by decide)

/-- C5: the parameter map `add` sends always contains `url`; it contains
`title` iff `title` is non-empty and `description` iff `description` is
non-empty; in particular `add(url, "", "")` sends only `url` and
`add(url, "T", "")` sends `url` and `title` only. -/
theorem claim_C5 (url title description : String) :
    (addParams url title description).lookup "url" = some url ∧
    (addParams url title description).lookup "title" =
      (if title = "" then none else some title) ∧
    (addParams url title description).lookup "description" =
      (if description = "" then none else some description) ∧
    addParams url "" "" = [("url", url)] ∧
    addParams url "T" "" = [("url", url), ("title", "T")] := by
  refine ⟨?_, ?_, ?_, rfl, rfl⟩ <;>
    by_cases ht : title = "" <;> by_cases hd : description = "" <;>
      simp [addParams, hmInsert, ht, hd, List.lookup]

/-- C7: `bookmarks()` is definitionally `bookmarks_in("unread")`: the sent
request and the handling of every response agree exactly. -/
theorem claim_C7 (c : Client) (resp : HttpResponse) :
    Client.bookmarks c resp = Client.bookmarks_in c "unread" resp ∧
    Client.bookmarksSent c = Client.bookmarksInSent c "unread" :=
  ⟨rfl, rfl⟩

/-- C10: `signed_request` decides token use solely on `oauth_key`: with
`oauth_key` present a token is always used (its secret defaulting to the
empty string when `oauth_secret` is absent), and with `oauth_key` absent no
token is used even when `oauth_secret` is present. -/
theorem claim_C10 (c : Client) :
    (∀ k, c.oauth_key = some k →
      signedRequestToken c = some (k, c.oauth_secret.getD "") ∧
      (c.oauth_secret = none → signedRequestToken c = some (k, ""))) ∧
    (c.oauth_key = none → signedRequestToken c = none) := by
  constructor
  · intro k hk
    constructor
    · simp [signedRequestToken, hk]
    · intro hs
      simp [signedRequestToken, hk, hs]
  · intro hk
    simp [signedRequestToken, hk]

/-- C10 (witness): concrete clients with a key and a missing secret, and
with a secret but no key. -/
theorem claim_C10_witness :
    signedRequestToken ⟨"ck", "cs", some "k", none⟩ = some ("k", "") ∧
    signedRequestToken ⟨"ck", "cs", none, some "s"⟩ = none :=
  ⟨((claim_C10 ⟨"ck", "cs", some "k", none⟩).1 "k" rfl).2 rfl,
   (claim_C10 ⟨"ck", "cs", none, some "s"⟩).2 rfl⟩

/-- C2: whenever the parsed query pairs of the token-exchange body lack
`oauth_token` or lack `oauth_token_secret` (a body with no `=` yields the
single pair `(body, "")`, hence falls under this hypothesis), `authenticate`
fails with the incomplete-response error, whose message is literally the
fixed text followed by the body reconstructed as the parsed query string
`https://junk.com/?<body>` — so the message contains the offending body. -/
theorem claim_C2 (body u p ck cs : String)
    (h : hmGet (hmFromIter (parseQueryPairs body)) "oauth_token" = none ∨
         hmGet (hmFromIter (parseQueryPairs body)) "oauth_token_secret" = none) :
    authenticate u p ck cs ⟨200, body⟩ =
      .authIncomplete ("oauth_tokens not both in response: " ++ qlineOf body) ∧
    "oauth_tokens not both in response: " ++ qlineOf body =
      ("oauth_tokens not both in response: " ++ "https://junk.com/?") ++ body := by
  refine ⟨authenticate_err u p ck cs 200 body (by decide) h, ?_⟩
  simp only [qlineOf]
  rw [← String.append_assoc]

/-- C2 (witness): the corrupted-qline test body. -/
theorem claim_C2_witness :
    authenticate "username" "password" "key" "secret" ⟨200, "badqline"⟩ =
      .authIncomplete ("oauth_tokens not both in response: " ++ qlineOf "badqline") ∧
    "oauth_tokens not both in response: " ++ qlineOf "badqline" =
      ("oauth_tokens not both in response: " ++ "https://junk.com/?") ++ "badqline" :=
  claim_C2 "badqline" "username" "password" "key" "secret" (Or.inl rfl)

/-- C4 (counterexample): token-exchange parsing is NOT a function of the set
of parsed pairs: with the body `oauth_token=A&oauth_token=B&oauth_token_secret=S`
the parsed pairs include `oauth_token=A` and `oauth_token_secret=S`, yet
`authenticate` succeeds with `oauth_key = B` (the `HashMap` keeps the last
duplicate), not `A`. -/
theorem claim_C4_counterexample :
    ¬ (∀ (body T S u p ck cs : String),
        ("oauth_token", T) ∈ parseQueryPairs body →
        ("oauth_token_secret", S) ∈ parseQueryPairs body →
        authenticate u p ck cs ⟨200, body⟩ = .ok ⟨ck, cs, some T, some S⟩) := by
  intro h
  have h2 := h "oauth_token=A&oauth_token=B&oauth_token_secret=S" "A" "S"
    "u" "p" "ck" "cs" (by decide) (by decide)
  have h3 : authenticate "u" "p" "ck" "cs"
      ⟨200, "oauth_token=A&oauth_token=B&oauth_token_secret=S"⟩ =
      .ok ⟨"ck", "cs", some "B", some "S"⟩ := rfl
  rw [h3] at h2
  exact absurd h2 (by decide)

/-- C4 (amended): token-exchange parsing depends on the parsed pairs only
through the map built from them with later duplicates overriding earlier
ones: whenever that map sends `oauth_token` to `T` and `oauth_token_secret`
to `S` — in particular whenever each key occurs once, in either order, with
arbitrary unrelated extra fields — `authenticate` succeeds with
`oauth_key = T` and `oauth_secret = S`; and the two bodies
`oauth_token=T&oauth_token_secret=S` and `oauth_token_secret=S&oauth_token=T`
yield identical results, for values of verbatim characters (above `U+0020`
and not separators or escape characters; a trailing space or C0 control
would be trimmed in one order but kept, interior, in the other). -/
theorem claim_C4_amended :
    (∀ (body T S u p ck cs : String),
        hmGet (hmFromIter (parseQueryPairs body)) "oauth_token" = some T →
        hmGet (hmFromIter (parseQueryPairs body)) "oauth_token_secret" = some S →
        authenticate u p ck cs ⟨200, body⟩ = .ok ⟨ck, cs, some T, some S⟩) ∧
    (∀ (T S u p ck cs : String), plainValue T → plainValue S →
        authenticate u p ck cs
          ⟨200, "oauth_token=" ++ T ++ "&oauth_token_secret=" ++ S⟩ =
        authenticate u p ck cs
          ⟨200, "oauth_token_secret=" ++ S ++ "&oauth_token=" ++ T⟩) := by
  constructor
  · intro body T S u p ck cs hT hS
    exact authenticate_ok u p ck cs 200 body T S (by decide) hT hS
  · intro T S u p ck cs hT hS
    have hTc : ∀ c ∈ T.toList, plainChar c := List.all_eq_true.mp hT
    have hSc : ∀ c ∈ S.toList, plainChar c := List.all_eq_true.mp hS
    have hkTok : ∀ c ∈ ("oauth_token" : String).toList, plainChar c := by decide
    have hkSec : ∀ c ∈ ("oauth_token_secret" : String).toList, plainChar c := by
      decide
    have e1 : parseQueryPairs ("oauth_token=" ++ T ++ "&oauth_token_secret=" ++ S)
        = [("oauth_token", T), ("oauth_token_secret", S)] := by
      apply parseQueryPairs_two ?_ hkTok hTc hkSec hSc
      show (("oauth_token=" ++ T) ++ "&oauth_token_secret=" ++ S).data = _
      rw [String.data_append, String.data_append, String.data_append]
      show ((("oauth_token" : String).data ++ ['=']) ++ T.data) ++
          ('&' :: ("oauth_token_secret" : String).data ++ ['=']) ++ S.data = _
      simp [String.toList, List.append_assoc]
    have e2 : parseQueryPairs ("oauth_token_secret=" ++ S ++ "&oauth_token=" ++ T)
        = [("oauth_token_secret", S), ("oauth_token", T)] := by
      apply parseQueryPairs_two ?_ hkSec hSc hkTok hTc
      show (("oauth_token_secret=" ++ S) ++ "&oauth_token=" ++ T).data = _
      rw [String.data_append, String.data_append, String.data_append]
      show ((("oauth_token_secret" : String).data ++ ['=']) ++ S.data) ++
          ('&' :: ("oauth_token" : String).data ++ ['=']) ++ T.data = _
      simp [String.toList, List.append_assoc]
    have g1 : hmGet (hmFromIter [(("oauth_token" : String), T),
        (("oauth_token_secret" : String), S)]) "oauth_token" = some T := rfl
    have g2 : hmGet (hmFromIter [(("oauth_token" : String), T),
        (("oauth_token_secret" : String), S)]) "oauth_token_secret" = some S := rfl
    have g3 : hmGet (hmFromIter [(("oauth_token_secret" : String), S),
        (("oauth_token" : String), T)]) "oauth_token" = some T := rfl
    have g4 : hmGet (hmFromIter [(("oauth_token_secret" : String), S),
        (("oauth_token" : String), T)]) "oauth_token_secret" = some S := rfl
    rw [authenticate_ok u p ck cs 200 _ T S (by decide) (e1 ▸ g1) (e1 ▸ g2),
      authenticate_ok u p ck cs 200 _ T S (by decide) (e2 ▸ g3) (e2 ▸ g4)]

/-- C4 (witness): the amended statement applied to the test-suite bodies,
in both field orders. -/
theorem claim_C4_amended_witness :
    authenticate "username" "password" "key" "secret"
      ⟨200, "oauth_token=token&oauth_token_secret=secret"⟩ =
      .ok ⟨"key", "secret", some "token", some "secret"⟩ ∧
    authenticate "username" "password" "key" "secret"
      ⟨200, "oauth_token=token&oauth_token_secret=secret"⟩ =
    authenticate "username" "password" "key" "secret"
      ⟨200, "oauth_token_secret=secret&oauth_token=token"⟩ :=
  ⟨claim_C4_amended.1 "oauth_token=token&oauth_token_secret=secret"
      "token" "secret" "username" "password" "key" "secret" rfl rfl,
   claim_C4_amended.2 "token" "secret" "username" "password" "key" "secret"
      rfl rfl⟩

/-- C6: `authenticate` sends exactly the parameter map `x_auth_username`,
`x_auth_password`, `x_auth_mode = "client_auth"` to `oauth/access_token`,
signed by a client whose oauth fields are both absent, and on success
returns the given consumer credentials completed with the parsed token
pair. -/
theorem claim_C6 (u p ck cs : String) :
    (authenticateSent u p ck cs).action = "oauth/access_token" ∧
    (authenticateSent u p ck cs).params =
      [("x_auth_username", u), ("x_auth_password", p),
       ("x_auth_mode", "client_auth")] ∧
    (authenticateSent u p ck cs).signer = ⟨ck, cs, none, none⟩ ∧
    (∀ (s : Nat) (body T S : String), ¬ (400 ≤ s ∧ s ≤ 599) →
      hmGet (hmFromIter (parseQueryPairs body)) "oauth_token" = some T →
      hmGet (hmFromIter (parseQueryPairs body)) "oauth_token_secret" = some S →
      authenticate u p ck cs ⟨s, body⟩ = .ok ⟨ck, cs, some T, some S⟩) := by
  refine ⟨rfl, ?_, rfl, ?_⟩
  · simp [authenticateSent, signedRequestSent, authParams, hmInsert]
  · intro s body T S hs hT hS
    exact authenticate_ok u p ck cs s body T S hs hT hS

/-- C6 (witness): the exchange at the test-suite response. -/
theorem claim_C6_witness :
    (authenticateSent "username" "password" "key" "secret").action =
      "oauth/access_token" ∧
    (authenticateSent "username" "password" "key" "secret").params =
      [("x_auth_username", "username"), ("x_auth_password", "password"),
       ("x_auth_mode", "client_auth")] ∧
    (authenticateSent "username" "password" "key" "secret").signer =
      ⟨"key", "secret", none, none⟩ ∧
    authenticate "username" "password" "key" "secret"
      ⟨200, "oauth_token=token&oauth_token_secret=secret"⟩ =
      .ok ⟨"key", "secret", some "token", some "secret"⟩ :=
  ⟨(claim_C6 "username" "password" "key" "secret").1,
   (claim_C6 "username" "password" "key" "secret").2.1,
   (claim_C6 "username" "password" "key" "secret").2.2.1,
   (claim_C6 "username" "password" "key" "secret").2.2.2 200
     "oauth_token=token&oauth_token_secret=secret" "token" "secret"
     (by decide) rfl rfl⟩

/-- C8: every client the library itself produces has `oauth_key` and
`oauth_secret` either both present or both absent: the intermediate client
that signs the exchange has both absent, and any client returned by a
successful `authenticate` has both present. -/
theorem claim_C8 (u p ck cs : String) :
    ((authenticateSent u p ck cs).signer.oauth_key = none ∧
     (authenticateSent u p ck cs).signer.oauth_secret = none) ∧
    (∀ (resp : HttpResponse) (c : Client),
      authenticate u p ck cs resp = .ok c →
      c.oauth_key.isSome ∧ c.oauth_secret.isSome) := by
  refine ⟨⟨rfl, rfl⟩, ?_⟩
  intro resp c h
  unfold authenticate at h
  cases hrec : signedRequestRecv resp with
  | error s => rw [hrec] at h; cases h
  | ok body =>
    rw [hrec] at h
    simp only at h
    split at h
    · cases h
    · cases h
      simp

/-- C8 (witness): the successful exchange of the test suite produces a
client with both token fields present. -/
theorem claim_C8_witness :
    (Client.mk "key" "secret" (some "token") (some "secret")).oauth_key.isSome ∧
    (Client.mk "key" "secret" (some "token") (some "secret")).oauth_secret.isSome :=
  (claim_C8 "username" "password" "key" "secret").2
    ⟨200, "oauth_token=token&oauth_token_secret=secret"⟩
    ⟨"key", "secret", some "token", some "secret"⟩ rfl

/-- `hmInsert` sends permuted maps to permuted maps. -/
theorem hmInsert_perm (k v : String) {l1 l2 : List (String × String)}
    (h : l1.Perm l2) : (hmInsert k v l1).Perm (hmInsert k v l2) :=
  (h.filter _).append_right _

/-- Sorting strings is invariant under permutation of the input. -/
theorem sortStrings_eq_of_perm {l1 l2 : List String} (h : l1.Perm l2) :
    sortStrings l1 = sortStrings l2 := by
  haveI : IsTotal String (· ≤ ·) := ⟨fun a b => le_total a b⟩
  haveI : IsTrans String (· ≤ ·) := ⟨fun _ _ _ => le_trans⟩
  haveI : IsAntisymm String (· ≤ ·) := ⟨fun _ _ => le_antisymm⟩
  exact List.eq_of_perm_of_sorted
    (((List.perm_insertionSort _ l1).trans h).trans
      (List.perm_insertionSort _ l2).symm)
    (List.sorted_insertionSort _ l1) (List.sorted_insertionSort _ l2)

/-- The sorted encoded query is invariant under permutation of the
parameter map. -/
theorem toQuery_eq_of_perm {l1 l2 : List (String × String)} (h : l1.Perm l2) :
    toQuery l1 = toQuery l2 := by
  unfold toQuery
  exact congrArg (joinSep "&") (sortStrings_eq_of_perm (h.map _))

/-- The signer produces the identical header on permuted parameter maps:
every parameter-dependent step (protocol-parameter inserts, the sorted
query of the base string, the sorted header pairs) is permutation-invariant
or sorts. -/
theorem authorize_eq_of_perm (method uri : String) (consumer : String × String)
    (token : Option (String × String)) {l1 l2 : List (String × String)}
    (h : l1.Perm l2) (nonce timestamp : String) :
    authorize method uri consumer token l1 nonce timestamp =
      authorize method uri consumer token l2 nonce timestamp := by
  have h5 := hmInsert_perm "oauth_version" "1.0"
    (hmInsert_perm "oauth_timestamp" timestamp
      (hmInsert_perm "oauth_signature_method" "HMAC-SHA1"
        (hmInsert_perm "oauth_nonce" nonce
          (hmInsert_perm "oauth_consumer_key" consumer.1 h))))
  cases token with
  | none =>
    simp only [authorize]
    rw [toQuery_eq_of_perm h5]
    exact congrArg (fun l => "OAuth " ++ joinSep ", " l)
      (sortStrings_eq_of_perm (((hmInsert_perm _ _ h5).filter _).map _))
  | some t =>
    simp only [authorize]
    have h6 := hmInsert_perm "oauth_token" t.1 h5
    rw [toQuery_eq_of_perm h6]
    exact congrArg (fun l => "OAuth " ++ joinSep ", " l)
      (sortStrings_eq_of_perm (((hmInsert_perm _ _ h6).filter _).map _))

/-- C9: at a fixed nonce and timestamp the Authorization header of
`signed_request` is a pure function of the parameter map: two runs over the
same parameters — in any iteration order, i.e. over any permutation of the
map's pairs — produce the identical header string. -/
theorem claim_C9 (action : String) (c : Client) (nonce timestamp : String)
    {params1 params2 : List (String × String)} (h : params1.Perm params2) :
    signedRequestHeader action params1 c nonce timestamp =
      signedRequestHeader action params2 c nonce timestamp := by
  unfold signedRequestHeader
  exact authorize_eq_of_perm _ _ _ _ h _ _

/-- C9 (witness): the two iteration orders of an `add` parameter map sign
identically. -/
theorem claim_C9_witness :
    signedRequestHeader "bookmarks/add"
      [("url", "https://sirupsen.com/read"), ("title", "How I Read")]
      ⟨"ck", "cs", some "tk", some "ts"⟩ "nonce123" "1234567890" =
    signedRequestHeader "bookmarks/add"
      [("title", "How I Read"), ("url", "https://sirupsen.com/read")]
      ⟨"ck", "cs", some "tk", some "ts"⟩ "nonce123" "1234567890" :=
  claim_C9 "bookmarks/add" ⟨"ck", "cs", some "tk", some "ts"⟩ "nonce123"
    "1234567890" (by decide)

end Instapaper
